import Mathlib

/-!
Verification of the QR recognition pipeline of the qr-scanner-app
repository (the QRService class in src/App.tsx).  The TypeScript code is
shallowly embedded: pixel buffers become lists of natural-number samples,
promises and timeouts become explicit settle-time parameters fed through a
race function, and the opaque decode primitive (jsQR / QrScanner) becomes
an oracle parameter.  Chinese string literals from the source are kept
verbatim.
-/

set_option maxRecDepth 8000

namespace QRScanner

/-! ## Character helpers modelling JavaScript regular-expression classes -/

/-- The characters that the JavaScript regex metacharacter for "any
character" does NOT match: line terminators. -/
def isLineTerm (c : Char) : Bool :=
  c == '\n' || c == '\r' || c.val == 0x2028 || c.val == 0x2029

/-- A character matched by the JavaScript "any character" regex
metacharacter (everything except line terminators). -/
def isDotChar (c : Char) : Bool := !(isLineTerm c)

/-- The JavaScript whitespace class used in the phone/SMS patterns. -/
def isJsSpace (c : Char) : Bool :=
  c == ' ' || c == '\t' || c == '\n' || c == '\r' || c.val == 0x0b ||
  c.val == 0x0c || c.val == 0xa0 || c.val == 0x1680 ||
  (0x2000 ≤ c.val.toNat && c.val.toNat ≤ 0x200a) ||
  c.val == 0x2028 || c.val == 0x2029 || c.val == 0x202f ||
  c.val == 0x205f || c.val == 0x3000 || c.val == 0xfeff

/-- Characters of the class `[0-9\-\s()]` in the phone/SMS patterns. -/
def isPhoneChar (c : Char) : Bool :=
  c.isDigit || c == '-' || isJsSpace c || c == '(' || c == ')'

/-- Whether the first list is an initial segment of the second. -/
def strStarts : List Char → List Char → Bool
  | [], _ => true
  | _ :: _, [] => false
  | a :: ps, b :: ss => a == b && strStarts ps ss

/-- Whether some suffix of the second list begins with the first list
(JavaScript String.includes). -/
def strIncludesL (sub : List Char) : List Char → Bool
  | [] => sub.isEmpty
  | c :: rest => strStarts sub (c :: rest) || strIncludesL sub rest

/-- JavaScript String.includes on Lean strings. -/
def strIncludes (s sub : String) : Bool := strIncludesL sub.data s.data

/-- The head of the list exists and is matched by the "any character"
metacharacter (one-or-more wildcard needs at least this). -/
def hasDotCharHead : List Char → Bool
  | [] => false
  | c :: _ => isDotChar c

/-- All suffixes obtained by consuming one or more characters satisfying
`p` from the front; used to enumerate the split points a backtracking
regex engine would try for a one-or-more class repetition. -/
def tailsAfterPlus (p : Char → Bool) : List Char → List (List Char)
  | [] => []
  | c :: rest => if p c then rest :: tailsAfterPlus p rest else []

/-! ## The classifier regex tests (QRService.detectQRType patterns) -/

/-- Test of the URL pattern: starts with http:// or https:// followed by
at least one non-line-terminator character. -/
def testURL (s : String) : Bool :=
  (strStarts "http://".data s.data && hasDotCharHead (s.data.drop 7)) ||
  (strStarts "https://".data s.data && hasDotCharHead (s.data.drop 8))

/-- Test of the mailto pattern body after the scheme: one-or-more wildcard
characters, an at sign, one-or-more wildcard characters, a literal dot,
then at least one wildcard character (free at the right end). -/
def matchMailBody (l : List Char) : Bool :=
  (tailsAfterPlus isDotChar l).any fun r1 =>
    match r1 with
    | '@' :: r2 =>
      (tailsAfterPlus isDotChar r2).any fun r3 =>
        match r3 with
        | '.' :: r4 => hasDotCharHead r4
        | _ => false
    | _ => false

/-- Test of the mailto email pattern. -/
def testMailto (s : String) : Bool :=
  strStarts "mailto:".data s.data && matchMailBody (s.data.drop 7)

/-- Test of the bare email pattern: one-or-more non-at characters, an at
sign, one-or-more non-at characters, a dot, one-or-more non-at characters,
anchored at both ends. -/
def testBareEmail (s : String) : Bool :=
  (tailsAfterPlus (fun c => c != '@') s.data).any fun r1 =>
    match r1 with
    | '@' :: r2 =>
      (tailsAfterPlus (fun c => c != '@') r2).any fun r3 =>
        match r3 with
        | '.' :: r4 => !r4.isEmpty && r4.all (fun c => c != '@')
        | _ => false
    | _ => false

/-- Match of an optional leading plus sign followed by at least one phone
character (the tail of the tel and sms patterns, free at the right end). -/
def matchOptPlusPhone (l : List Char) : Bool :=
  match l with
  | '+' :: rest =>
    match rest with
    | [] => false
    | c :: _ => isPhoneChar c
  | [] => false
  | c :: _ => isPhoneChar c

/-- Test of the tel phone pattern. -/
def testTel (s : String) : Bool :=
  strStarts "tel:".data s.data && matchOptPlusPhone (s.data.drop 4)

/-- Test of the bare phone pattern: optional plus, then seven or more
phone characters, anchored at both ends. -/
def testBarePhone (s : String) : Bool :=
  match s.data with
  | '+' :: rest => decide (7 ≤ rest.length) && rest.all isPhoneChar
  | l => decide (7 ≤ l.length) && l.all isPhoneChar

/-- Test of the sms pattern. -/
def testSms (s : String) : Bool :=
  strStarts "sms:".data s.data && matchOptPlusPhone (s.data.drop 4)

/-- Test of the WIFI pattern. -/
def testWifi (s : String) : Bool := strStarts "WIFI:".data s.data

/-- Test of the vCard pattern. -/
def testVcard (s : String) : Bool := strStarts "BEGIN:VCARD".data s.data

/-- QRService.detectQRType: ordered pattern matching on the decoded text,
first matching rule wins, TEXT is the catch-all for non-empty data. -/
def detectQRType (data : String) : String :=
  if data = "" then "unknown"
  else if testURL data then "URL"
  else if testMailto data || testBareEmail data then "EMAIL"
  else if testTel data || testBarePhone data then "PHONE"
  else if testSms data then "SMS"
  else if testWifi data then "WIFI"
  else if testVcard data then "VCARD"
  else "TEXT"

/-- QRService.generateDescription: short display label; URL and TEXT
truncate the payload to its first 30 characters and append an ellipsis
marker when it was longer. -/
def generateDescription (data ty : String) : String :=
  if data = "" then "识别失败"
  else if ty = "URL" then
    "网址链接: " ++ data.take 30 ++ (if 30 < data.length then "..." else "")
  else if ty = "EMAIL" then "电子邮箱: " ++ data
  else if ty = "PHONE" then "电话号码: " ++ data
  else if ty = "SMS" then "短信: " ++ data
  else if ty = "WIFI" then "WiFi 配置"
  else if ty = "VCARD" then "联系人信息"
  else if ty = "TEXT" then
    "文本: " ++ data.take 30 ++ (if 30 < data.length then "..." else "")
  else data.take 30 ++ (if 30 < data.length then "..." else "")

/-- Result record of QRService.validateQRData. -/
structure QRValidation where
  isValid : Bool
  ty : String
  description : String
deriving DecidableEq

/-- QRService.validateQRData: same ordered rule table, returning a
validity flag, a type tag and a fixed label; empty input is invalid with
the empty-data label. -/
def validateQRData (data : String) : QRValidation :=
  if data = "" then ⟨false, "UNKNOWN", "空数据"⟩
  else if testURL data then ⟨true, "URL", "网址链接"⟩
  else if testMailto data || testBareEmail data then ⟨true, "EMAIL", "电子邮箱"⟩
  else if testTel data || testBarePhone data then ⟨true, "PHONE", "电话号码"⟩
  else if testSms data then ⟨true, "SMS", "短信"⟩
  else if testWifi data then ⟨true, "WIFI", "WiFi 配置"⟩
  else if testVcard data then ⟨true, "VCARD", "联系人信息"⟩
  else ⟨true, "TEXT", "文本内容"⟩

/-! ## Pixel buffers and the image transform library -/

/-- A pixel buffer: row-major RGBA samples, four 8-bit samples per pixel
(the ImageData objects of the source). -/
structure ImageData where
  width : ℕ
  height : ℕ
  data : List ℕ
deriving DecidableEq

/-- Applies `f index value` to every sample of a buffer, threading the
running sample index (the for-loops of the transforms). -/
def mapSamples (f : ℕ → ℕ → ℕ) : ℕ → List ℕ → List ℕ
  | _, [] => []
  | i, v :: rest => f i v :: mapSamples f (i + 1) rest

/-- Clamp an integer to the byte range, as Math.min(255, Math.max(0, z)). -/
def clampNat (z : ℤ) : ℕ := (min 255 (max 0 z)).toNat

/-- Round a rational to the nearest integer, ties to the even neighbour:
the conversion performed when a JavaScript number is stored into a
Uint8ClampedArray slot. -/
def roundHalfEven (q : ℚ) : ℤ :=
  if q - ⌊q⌋ < 1/2 then ⌊q⌋
  else if (1/2 : ℚ) < q - ⌊q⌋ then ⌊q⌋ + 1
  else if ⌊q⌋ % 2 = 0 then ⌊q⌋ else ⌊q⌋ + 1

/-- Clamp a rational to [0,255] (in the min/max order of the source) and store
it as an 8-bit sample (Uint8ClampedArray assignment). -/
def uint8ClampQ (q : ℚ) : ℕ := (roundHalfEven (min 255 (max 0 q))).toNat

/-- Per-sample formula of QRService.enhanceContrast. -/
def contrastSample (v : ℕ) : ℕ :=
  uint8ClampQ (((v : ℚ) - 128) * 1.5 + 128)

/-- QRService.enhanceContrast: contrast stretch of the R, G and B samples
around 128 by factor 1.5, alpha untouched. -/
def enhanceContrast (img : ImageData) : ImageData :=
  ⟨img.width, img.height,
   mapSamples (fun i v => if i % 4 == 3 then v else contrastSample v) 0 img.data⟩

/-- Per-sample formula of QRService.adjustBrightness. -/
def brightSample (delta : ℤ) (v : ℕ) : ℕ := clampNat ((v : ℤ) + delta)

/-- QRService.adjustBrightness: adds the delta to the R, G and B samples
with clamping, alpha untouched. -/
def adjustBrightness (img : ImageData) (delta : ℤ) : ImageData :=
  ⟨img.width, img.height,
   mapSamples (fun i v => if i % 4 == 3 then v else brightSample delta v) 0 img.data⟩

/-- The sharpening convolution kernel, row-major. -/
def kernel : List ℤ := [0, -1, 0, -1, 5, -1, 0, -1, 0]

/-- The 3×3 convolution sum of QRService.sharpenImage at pixel (x,y) and
channel c, reading from the original buffer (only used when (x,y) is an
interior pixel, so the neighbour coordinates never underflow). -/
def convSum (img : ImageData) (x y c : ℕ) : ℤ :=
  ((List.range 9).map fun k =>
    (img.data.getD (((y + k / 3 - 1) * img.width + (x + k % 3 - 1)) * 4 + c) 0 : ℤ) *
      kernel.getD k 0).sum

/-- QRService.sharpenImage: the kernel applied per R/G/B channel to
interior pixels, reading neighbourhoods from the original buffer; border
pixels and alpha keep their original values (the loops only write interior
RGB slots of the copied array). -/
def sharpenImage (img : ImageData) : ImageData :=
  ⟨img.width, img.height,
   mapSamples (fun i v =>
     let x := i / 4 % img.width
     let y := i / 4 / img.width
     if i % 4 == 3 then v
     else if 1 ≤ x ∧ x + 1 < img.width ∧ 1 ≤ y ∧ y + 1 < img.height then
       clampNat (convSum img x y (i % 4))
     else v) 0 img.data⟩

/-- Sample accessor: channel c of pixel (x,y). -/
def sampleAt (img : ImageData) (x y c : ℕ) : ℕ :=
  img.data.getD ((y * img.width + x) * 4 + c) 0

/-! ## The single-region exhaustive strategy chain -/

/-- The inversionAttempts option passed to the decode primitive. -/
inductive Inversion where
  | dontInvert
  | attemptBoth
deriving DecidableEq

/-- The scale factors tried by strategy 6 of
QRService.tryMultipleRecognitionStrategies, in source order. -/
def scaleFactors : List ℚ := [0.5, 0.75, 1.25, 1.5, 2.0]

/-- The rescale loop of QRService.tryMultipleRecognitionStrategies.
Rescaling happens through an external canvas (QRService.scaleImage), so it
is an oracle returning the rescaled buffer, or nothing when the canvas
step fails — in which case that scale is skipped, as in the source. -/
def tryScaleStrategies (decode : ImageData → Inversion → Option String)
    (scaleImage : ℚ → Option ImageData) : List ℚ → Option String
  | [] => none
  | s :: rest =>
    match scaleImage s with
    | none => tryScaleStrategies decode scaleImage rest
    | some scaled =>
      match decode scaled .attemptBoth with
      | some d => some d
      | none => tryScaleStrategies decode scaleImage rest

/-- QRService.tryMultipleRecognitionStrategies: sequentially attempts the
decode primitive, with both-polarity mode, on the original buffer, the
contrast-enhanced buffer, the brightened (+30) buffer, the darkened (-30)
buffer, the sharpened buffer, and then the rescaled buffers; returns the
first successful payload, or nothing. -/
def tryMultipleRecognitionStrategies (decode : ImageData → Inversion → Option String)
    (scaleImage : ℚ → Option ImageData) (orig : ImageData) : Option String :=
  match decode orig .attemptBoth with
  | some d => some d
  | none =>
  match decode (enhanceContrast orig) .attemptBoth with
  | some d => some d
  | none =>
  match decode (adjustBrightness orig 30) .attemptBoth with
  | some d => some d
  | none =>
  match decode (adjustBrightness orig (-30)) .attemptBoth with
  | some d => some d
  | none =>
  match decode (sharpenImage orig) .attemptBoth with
  | some d => some d
  | none => tryScaleStrategies decode scaleImage scaleFactors

/-- The ordered list of decode attempts that
tryMultipleRecognitionStrategies is specified to make: original,
contrast-enhanced, brightened, darkened, sharpened, then each rescale. -/
def strategyAttempts (decode : ImageData → Inversion → Option String)
    (scaleImage : ℚ → Option ImageData) (orig : ImageData) : List (Option String) :=
  [decode orig .attemptBoth,
   decode (enhanceContrast orig) .attemptBoth,
   decode (adjustBrightness orig 30) .attemptBoth,
   decode (adjustBrightness orig (-30)) .attemptBoth,
   decode (sharpenImage orig) .attemptBoth] ++
  scaleFactors.map fun s => (scaleImage s).bind fun scaled => decode scaled .attemptBoth

/-! ## Results, deduplication and the multi-code orchestrator -/

/-- Bounding box of a decoded code in full-image coordinates. -/
structure CodePosition where
  x : ℚ
  y : ℚ
  width : ℚ
  height : ℚ
deriving DecidableEq

/-- One recognition result (the QRResult interface of the source). -/
structure QRResult where
  serialNumber : String
  qrType : String
  qrDescription : String
  confidence : ℚ
  processingTime : ℕ
  position : Option CodePosition := none
deriving DecidableEq

/-- The MultiQRResult interface of the source. -/
structure MultiQRResult where
  results : List QRResult
  totalFound : ℕ
  processingTime : ℕ
deriving DecidableEq

/-- JavaScript Math.round. -/
def jsRound (q : ℚ) : ℤ := ⌊q + 1/2⌋

/-- The deduplication key of a result: its rounded top-left coordinates
joined by an underscore, or the payload itself when it has no position. -/
def positionKey (r : QRResult) : String :=
  match r.position with
  | some p => toString (jsRound p.x) ++ "_" ++ toString (jsRound p.y)
  | none => r.serialNumber

/-- QRService.addUniqueResults: merges a batch of candidates into the
accepted list; a candidate is accepted when its payload differs from every
accepted payload and its position key is absent from the seen set, and on
acceptance both its payload and its position key join the seen set.
Returns the updated accepted list and seen set. -/
def addUniqueResults : List QRResult → List QRResult → List String →
    List QRResult × List String
  | results, [], found => (results, found)
  | results, r :: rest, found =>
    if !(results.any fun q => q.serialNumber == r.serialNumber)
        && !(found.contains (positionKey r)) then
      addUniqueResults (results ++ [r]) rest (positionKey r :: r.serialNumber :: found)
    else
      addUniqueResults results rest found

/-- The observable outcome of one orchestrator stage: how long the stage
takes (its decode calls are opaque) and which candidates it produces. -/
structure StageOutcome where
  duration : ℕ
  found : List QRResult
deriving DecidableEq

/-- QRService.performOptimizedRecognition: merges the full-frame stage,
then — when less than 1000 ms have elapsed — the 3×3 grid stage, then —
when less than 1500 ms have elapsed — the sliding-window stage, each
through addUniqueResults over the shared accepted list and seen set.
Returns the accepted results together with the time at which the promise
settles. -/
def performOptimizedRecognitionTimed (full grid sliding : StageOutcome) :
    List QRResult × ℕ :=
  let s1 := addUniqueResults [] full.found []
  let t1 := full.duration
  let s2 := if t1 < 1000 then
      (addUniqueResults s1.1 grid.found s1.2, t1 + grid.duration)
    else (s1, t1)
  if s2.2 < 1500 then
    ((addUniqueResults s2.1.1 sliding.found s2.1.2).1, s2.2 + sliding.duration)
  else (s2.1.1, s2.2)

/-! ## Promise race, timeouts and the entry points -/

/-- Promise.race of a work promise against a rejecting timeout: when the
work settles strictly before the deadline its outcome wins, otherwise the
timeout rejection wins. -/
def promiseRace (deadline settle : ℕ) (work : Except String α)
    (timeoutMsg : String) : Except String α :=
  if settle < deadline then work else .error timeoutMsg

/-- The failed fast-mode result returned by the fast recognizers when the
primitive finds nothing or throws. -/
def emptyFastResult : QRResult := ⟨"", "unknown", "", 0, 0, none⟩

/-- The no-code-found result of QRService.performFastSingleRecognition. -/
def notFoundResult : QRResult := ⟨"", "unknown", "未识别到二维码", 0, 0, none⟩

/-- A successful decode classified and packaged as a result. -/
def buildQRResult (s : String) : QRResult :=
  ⟨s, detectQRType s, generateDescription s (detectQRType s), 1, 0, none⟩

/-- Scan of one settled fast attempt: yields the result when the attempt
fulfilled with a non-empty payload. -/
def fastHit : Except String QRResult → Option QRResult
  | .ok r => if r.serialNumber ≠ "" then some r else none
  | .error _ => none

/-- QRService.performFastSingleRecognition: settles the two fast attempts
(QrScanner then jsQR, Promise.allSettled order), returns the first with a
non-empty payload; otherwise, when less than 800 ms have elapsed, one full
attempt runs, whose failure is swallowed; otherwise the no-code-found
result. -/
def performFastSingleRecognition (fast1 fast2 : Except String QRResult)
    (withinBudget : Bool) (fullAttempt : Except String String) : QRResult :=
  match fastHit fast1 with
  | some r => r
  | none =>
  match fastHit fast2 with
  | some r => r
  | none =>
    if withinBudget then
      match fullAttempt with
      | .ok s => if s ≠ "" then buildQRResult s else notFoundResult
      | .error _ => notFoundResult
    else notFoundResult

/-- QRService.recognizeImage: after initialization (whose failure alone
propagates), races the single-image recognition against a 1500 ms timeout;
a fulfilled race has its processing time overwritten with the measured
elapsed time; any rejection is caught and becomes a failed result whose
description distinguishes a timeout message from other failures, also
carrying the measured elapsed time. The parameters are the initialization
outcome, the settled outcome and settle time of
performFastSingleRecognition, and the wall-clock time elapsed when the
call returns. -/
def recognizeImage (init : Except String Unit) (perform : Except String QRResult)
    (settle elapsed : ℕ) : Except String QRResult :=
  init.bind fun _ =>
  match promiseRace 1500 settle perform "单图识别超时" with
  | .ok r => .ok { r with processingTime := elapsed }
  | .error msg =>
    .ok { serialNumber := ""
          qrType := "unknown"
          qrDescription := if strIncludes msg "超时" then "识别超时" else "识别失败"
          confidence := 0
          processingTime := elapsed
          position := none }

/-- QRService.recognizeMultipleQRCodes: after initialization (whose
failure alone propagates), loads the image into a canvas and races the
optimized recognition against a 2000 ms timeout inside one try block; a
fulfilled race is packaged with its count and the measured elapsed time;
any rejection — image-load failure or timeout — is caught and becomes an
empty MultiQRResult with the measured elapsed time. -/
def recognizeMultipleQRCodes (init load : Except String Unit) (settle : ℕ)
    (recognition : List QRResult) (elapsed : ℕ) : Except String MultiQRResult :=
  init.bind fun _ =>
  match load.bind fun _ => promiseRace 2000 settle (.ok recognition) "识别超时" with
  | .ok res => .ok ⟨res, res.length, elapsed⟩
  | .error _ => .ok ⟨[], 0, elapsed⟩

/-- The multi-code entry point composed with the staged pipeline: the
recognition promise settles with the accepted results at the settle time of the pipeline. -/
def recognizeAll (init load : Except String Unit) (full grid sliding : StageOutcome)
    (elapsed : ℕ) : Except String MultiQRResult :=
  let p := performOptimizedRecognitionTimed full grid sliding
  recognizeMultipleQRCodes init load p.2 p.1 elapsed

/-! ## Concrete sample inputs used by witnesses and counterexamples -/

/-- A one-pixel buffer. -/
def demoPixel : ImageData := ⟨1, 1, [129, 0, 255, 7]⟩

/-- A 3×3 buffer with one interior pixel. -/
def demoImg3 : ImageData :=
  ⟨3, 3,
   [10, 20, 30, 255, 40, 50, 60, 255, 70, 80, 90, 255,
    100, 110, 120, 255, 130, 140, 150, 255, 160, 170, 180, 255,
    190, 200, 210, 255, 220, 230, 240, 255, 5, 15, 25, 255]⟩

/-- A decode oracle that never finds a code. -/
def nullDecode : ImageData → Inversion → Option String := fun _ _ => none

/-- A rescale oracle whose canvas step always fails. -/
def nullScale : ℚ → Option ImageData := fun _ => none

/-- A concrete decoded result with a position. -/
def demoResult : QRResult :=
  ⟨"CODE-A", "TEXT", "文本: CODE-A", 1, 0, some ⟨10, 20, 5, 5⟩⟩

/-! ## Helper lemmas -/

theorem mapSamples_length (f : ℕ → ℕ → ℕ) (k : ℕ) (l : List ℕ) :
    (mapSamples f k l).length = l.length := by
  induction l generalizing k with
  | nil => rfl
  | cons v rest ih => simp [mapSamples, ih]

theorem mapSamples_getD (f : ℕ → ℕ → ℕ) (l : List ℕ) (k i : ℕ)
    (h : i < l.length) :
    (mapSamples f k l).getD i 0 = f (k + i) (l.getD i 0) := by
  induction l generalizing k i with
  | nil => simp at h
  | cons v rest ih =>
    cases i with
    | zero => simp [mapSamples]
    | succ j =>
      simp only [mapSamples, List.getD_cons_succ]
      rw [ih (k + 1) j (by simpa using Nat.lt_of_succ_lt_succ h)]
      ring_nf

theorem pixIndexLt {w h x y c : ℕ} (hx : x < w) (hy : y < h) (hc : c < 4) :
    (y * w + x) * 4 + c < w * h * 4 := by
  have h1 : y * w + x < w * h := by
    have e1 : (y + 1) * w = y * w + w := by ring
    have h2 : (y + 1) * w ≤ h * w := Nat.mul_le_mul_right w hy
    have e2 : h * w = w * h := Nat.mul_comm h w
    omega
  have e3 : (y * w + x + 1) * 4 = (y * w + x) * 4 + 4 := by ring
  have h3 : (y * w + x + 1) * 4 ≤ (w * h) * 4 := Nat.mul_le_mul_right 4 h1
  omega

/-- The accepted list of addUniqueResults keeps pairwise-distinct
payloads. -/
theorem addUniqueResults_pairwise (newResults : List QRResult) :
    ∀ results found,
      results.Pairwise (fun a b => a.serialNumber ≠ b.serialNumber) →
      (addUniqueResults results newResults found).1.Pairwise
        (fun a b => a.serialNumber ≠ b.serialNumber) := by
  induction newResults with
  | nil => intro results found hr; simpa [addUniqueResults] using hr
  | cons r rest ih =>
    intro results found hr
    by_cases hacc : (!(results.any fun q => q.serialNumber == r.serialNumber)
        && !(found.contains (positionKey r))) = true
    · rw [addUniqueResults, if_pos hacc]
      refine ih _ _ ?_
      rw [List.pairwise_append]
      refine ⟨hr, List.pairwise_singleton _ _, ?_⟩
      intro a ha b hb
      simp only [List.mem_singleton] at hb
      rw [hb]
      have hany : (results.any fun q => q.serialNumber == r.serialNumber) = false := by
        cases hq : results.any fun q => q.serialNumber == r.serialNumber
        · rfl
        · rw [hq] at hacc; simp at hacc
      have := List.any_eq_false.mp hany a ha
      simpa using this
    · rw [addUniqueResults, if_neg hacc]
      exact ih _ _ hr

/-- The rescale loop returns the first successful rescaled decode. -/
theorem tryScaleStrategies_eq_findSome (decode : ImageData → Inversion → Option String)
    (scaleImage : ℚ → Option ImageData) (l : List ℚ) :
    tryScaleStrategies decode scaleImage l =
      (l.map fun s => (scaleImage s).bind fun scaled =>
        decode scaled .attemptBoth).findSome? id := by
  induction l with
  | nil => rfl
  | cons s rest ih =>
    simp only [tryScaleStrategies, List.map_cons, List.findSome?_cons]
    cases hs : scaleImage s with
    | none => simpa [hs] using ih
    | some scaled =>
      cases hd : decode scaled .attemptBoth with
      | none => simpa [hs, hd] using ih
      | some d => simp [hs, hd]

theorem mapSamples_getD_ge (f : ℕ → ℕ → ℕ) (k : ℕ) (l : List ℕ) (i : ℕ)
    (h : l.length ≤ i) : (mapSamples f k l).getD i 0 = l.getD i 0 := by
  rw [List.getD_eq_default _ _ (by rwa [mapSamples_length]),
      List.getD_eq_default _ _ h]

/-- Sample maps that fix alpha slots leave every alpha sample unchanged. -/
theorem mapSamples_alpha (f : ℕ → ℕ → ℕ) (hf : ∀ i v, i % 4 = 3 → f i v = v)
    (l : List ℕ) (i : ℕ) (hi : i % 4 = 3) :
    (mapSamples f 0 l).getD i 0 = l.getD i 0 := by
  rcases Nat.lt_or_ge i l.length with h | h
  · rw [mapSamples_getD f l 0 i h, Nat.zero_add, hf i _ hi]
  · exact mapSamples_getD_ge f 0 l i h

/-! ## Theorems for the claims -/

/-- C4: the payload classifier maps each literal input of the claim
table to the stated type — the URL, EMAIL, PHONE, SMS, WIFI and VCARD
rules are tried in that order on non-empty input with the first matching
rule winning and TEXT as the catch-all (which is the very structure of the
detectQRType embedding above), and the empty string is UNKNOWN, with the
empty-data description (空数据) coming from validateQRData. -/
theorem detectQRType_literal_table :
    detectQRType "https://example.com/a" = "URL" ∧
    detectQRType "test@example.com" = "EMAIL" ∧
    detectQRType "+1-555-1234567" = "PHONE" ∧
    detectQRType "sms:+15551234567" = "SMS" ∧
    detectQRType "WIFI:T:WPA;S:net;;" = "WIFI" ∧
    detectQRType "BEGIN:VCARD\nEND:VCARD" = "VCARD" ∧
    detectQRType "hello world" = "TEXT" ∧
    detectQRType "" = "unknown" ∧
    validateQRData "" = ⟨false, "UNKNOWN", "空数据"⟩ ∧
    validateQRData "hello world" = ⟨true, "TEXT", "文本内容"⟩ := by
  refine ⟨by decide, by decide, by decide, by decide, by decide,
         by decide, by decide, by decide, by decide, by decide⟩

/-- C5: for URL and TEXT payloads the description embeds the first 30
characters of the payload and appends the ellipsis marker exactly when the
payload is longer than 30 characters; at the boundary, a 31-character
payload gets the first 30 characters plus the marker and a 30-character
payload is embedded whole with no marker. -/
theorem generateDescription_truncation :
    (∀ data : String, data ≠ "" →
      generateDescription data "URL" =
        "网址链接: " ++ data.take 30 ++ (if 30 < data.length then "..." else "") ∧
      generateDescription data "TEXT" =
        "文本: " ++ data.take 30 ++ (if 30 < data.length then "..." else "")) ∧
    generateDescription (String.mk (List.replicate 31 'a')) "URL" =
      "网址链接: " ++ String.mk (List.replicate 30 'a') ++ "..." ∧
    generateDescription (String.mk (List.replicate 30 'a')) "URL" =
      "网址链接: " ++ String.mk (List.replicate 30 'a') ∧
    generateDescription (String.mk (List.replicate 31 'a')) "TEXT" =
      "文本: " ++ String.mk (List.replicate 30 'a') ++ "..." ∧
    generateDescription (String.mk (List.replicate 30 'a')) "TEXT" =
      "文本: " ++ String.mk (List.replicate 30 'a') := by
  refine ⟨?_, by decide, by decide, by decide, by decide⟩
  intro data hd
  constructor
  · simp [generateDescription, hd]
  · simp [generateDescription, hd]

/-- C5 witness at a concrete payload. -/
theorem generateDescription_truncation_witness :
    "ab" ≠ "" ∧
    generateDescription "ab" "URL" =
      "网址链接: " ++ "ab".take 30 ++ (if 30 < "ab".length then "..." else "") :=
  ⟨by decide, (generateDescription_truncation.1 "ab" (by decide)).1⟩

/-- C8: contrast enhancement maps every R, G and B sample to
clamp(0,255,(in-128)*1.5+128), quantized to an 8-bit sample the way a
Uint8ClampedArray stores it (nearest integer, ties to even), leaves every
alpha sample unchanged, and returns a new buffer of identical width,
height and data length (the embedding is pure, so the input buffer is
never mutated). -/
theorem enhanceContrast_spec (img : ImageData) (i : ℕ) (h : i < img.data.length) :
    (enhanceContrast img).width = img.width ∧
    (enhanceContrast img).height = img.height ∧
    (enhanceContrast img).data.length = img.data.length ∧
    (i % 4 ≠ 3 →
      (enhanceContrast img).data.getD i 0 =
        (roundHalfEven (min 255 (max 0
          (((img.data.getD i 0 : ℚ) - 128) * 1.5 + 128)))).toNat) ∧
    (i % 4 = 3 → (enhanceContrast img).data.getD i 0 = img.data.getD i 0) := by
  refine ⟨rfl, rfl, mapSamples_length _ _ _, ?_, ?_⟩
  · intro hi
    have := mapSamples_getD
      (fun i v => if i % 4 == 3 then v else contrastSample v) img.data 0 i h
    rw [show (enhanceContrast img).data =
      mapSamples (fun i v => if i % 4 == 3 then v else contrastSample v) 0 img.data
      from rfl, this]
    simp [hi, contrastSample, uint8ClampQ]
  · intro hi
    exact mapSamples_alpha _ (fun j v hj => by simp [hj]) img.data i hi

/-- C8 witness: one concrete sample, 129 ↦ 130. -/
theorem enhanceContrast_spec_witness :
    (0 : ℕ) % 4 ≠ 3 ∧
    (enhanceContrast demoPixel).data.getD 0 0 =
      (roundHalfEven (min 255 (max 0
        (((demoPixel.data.getD 0 0 : ℚ) - 128) * 1.5 + 128)))).toNat :=
  ⟨by decide, (enhanceContrast_spec demoPixel 0 (by decide)).2.2.2.1 (by decide)⟩

/-- C10: each of the three non-scaling transforms returns a buffer whose
width, height and data length equal those of the input and whose alpha
samples (every fourth sample) equal those of the input; the embedding is
pure, so the input buffer samples are left unmodified by construction. -/
theorem transforms_frame_spec :
    (∀ img : ImageData,
      (enhanceContrast img).width = img.width ∧
      (enhanceContrast img).height = img.height ∧
      (enhanceContrast img).data.length = img.data.length) ∧
    (∀ (img : ImageData) (delta : ℤ),
      (adjustBrightness img delta).width = img.width ∧
      (adjustBrightness img delta).height = img.height ∧
      (adjustBrightness img delta).data.length = img.data.length) ∧
    (∀ img : ImageData,
      (sharpenImage img).width = img.width ∧
      (sharpenImage img).height = img.height ∧
      (sharpenImage img).data.length = img.data.length) ∧
    (∀ (img : ImageData) (i : ℕ), i % 4 = 3 →
      (enhanceContrast img).data.getD i 0 = img.data.getD i 0) ∧
    (∀ (img : ImageData) (delta : ℤ) (i : ℕ), i % 4 = 3 →
      (adjustBrightness img delta).data.getD i 0 = img.data.getD i 0) ∧
    (∀ (img : ImageData) (i : ℕ), i % 4 = 3 →
      (sharpenImage img).data.getD i 0 = img.data.getD i 0) := by
  refine ⟨fun img => ⟨rfl, rfl, mapSamples_length _ _ _⟩,
         fun img delta => ⟨rfl, rfl, mapSamples_length _ _ _⟩,
         fun img => ⟨rfl, rfl, mapSamples_length _ _ _⟩, ?_, ?_, ?_⟩
  · intro img i hi
    exact mapSamples_alpha _ (fun j v hj => by simp [hj]) img.data i hi
  · intro img delta i hi
    exact mapSamples_alpha _ (fun j v hj => by simp [hj]) img.data i hi
  · intro img i hi
    exact mapSamples_alpha _ (fun j v hj => by simp [hj]) img.data i hi

/-- C10 witness: the alpha sample of a concrete buffer survives all three
transforms. -/
theorem transforms_frame_spec_witness :
    (3 : ℕ) % 4 = 3 ∧
    (enhanceContrast demoPixel).data.getD 3 0 = demoPixel.data.getD 3 0 ∧
    (adjustBrightness demoPixel 30).data.getD 3 0 = demoPixel.data.getD 3 0 ∧
    (sharpenImage demoPixel).data.getD 3 0 = demoPixel.data.getD 3 0 :=
  ⟨by decide,
   transforms_frame_spec.2.2.2.1 demoPixel 3 (by decide),
   transforms_frame_spec.2.2.2.2.1 demoPixel 30 3 (by decide),
   transforms_frame_spec.2.2.2.2.2 demoPixel 3 (by decide)⟩

/-- The convolution sum at an interior pixel equals five times the centre
sample minus the four edge-adjacent samples (the corner weights of the
kernel are zero). -/
theorem convSum_interior (img : ImageData) (x y c : ℕ) (hx : 1 ≤ x) (hy : 1 ≤ y) :
    convSum img x y c =
      5 * (sampleAt img x y c : ℤ) - sampleAt img (x - 1) y c
        - sampleAt img (x + 1) y c - sampleAt img x (y - 1) c
        - sampleAt img x (y + 1) c := by
  obtain ⟨a, rfl⟩ := Nat.exists_eq_add_of_le hx
  obtain ⟨b, rfl⟩ := Nat.exists_eq_add_of_le hy
  simp only [convSum, kernel, sampleAt, List.range_succ, List.range_zero,
    List.map_append, List.map_cons, List.map_nil, List.sum_append,
    List.sum_cons, List.sum_nil, List.nil_append, List.getD_cons_zero,
    List.getD_cons_succ]
  norm_num
  ring

/-- C9: the sharpening transform writes, at every interior pixel and
every R/G/B channel, the clamped 3×3 convolution of the kernel
[0,-1,0; -1,5,-1; 0,-1,0] — equivalently five times the centre minus the
four edge neighbours, all samples read from the original input buffer —
while every border pixel and every alpha sample keeps its original
value. -/
theorem sharpenImage_spec :
    (∀ (img : ImageData) (x y c : ℕ),
      img.data.length = img.width * img.height * 4 →
      1 ≤ x → x + 1 < img.width → 1 ≤ y → y + 1 < img.height → c < 3 →
      (sharpenImage img).data.getD ((y * img.width + x) * 4 + c) 0 =
        clampNat (5 * (sampleAt img x y c : ℤ) - sampleAt img (x - 1) y c
          - sampleAt img (x + 1) y c - sampleAt img x (y - 1) c
          - sampleAt img x (y + 1) c)) ∧
    (∀ (img : ImageData) (x y c : ℕ),
      img.data.length = img.width * img.height * 4 →
      x < img.width → y < img.height → c < 3 →
      ¬(1 ≤ x ∧ x + 1 < img.width ∧ 1 ≤ y ∧ y + 1 < img.height) →
      (sharpenImage img).data.getD ((y * img.width + x) * 4 + c) 0 =
        img.data.getD ((y * img.width + x) * 4 + c) 0) ∧
    (∀ (img : ImageData) (i : ℕ), i % 4 = 3 →
      (sharpenImage img).data.getD i 0 = img.data.getD i 0) := by
  refine ⟨?_, ?_, ?_⟩
  · intro img x y c hlen hx1 hx2 hy1 hy2 hc
    have hxw : x < img.width := by omega
    have hyh : y < img.height := by omega
    have hidx : (y * img.width + x) * 4 + c < img.data.length := by
      rw [hlen]; exact pixIndexLt hxw hyh (by omega)
    have hmod : ((y * img.width + x) * 4 + c) % 4 = c := by omega
    have hdiv : ((y * img.width + x) * 4 + c) / 4 = y * img.width + x := by omega
    have hpmod : (y * img.width + x) % img.width = x := by
      rw [Nat.mul_comm y img.width, Nat.mul_add_mod]; exact Nat.mod_eq_of_lt hxw
    have hpdiv : (y * img.width + x) / img.width = y := by
      rw [Nat.mul_comm y img.width, Nat.mul_add_div (by omega)]
      rw [Nat.div_eq_of_lt hxw]
      omega
    rw [show (sharpenImage img).data = mapSamples (fun i v =>
        let x := i / 4 % img.width
        let y := i / 4 / img.width
        if i % 4 == 3 then v
        else if 1 ≤ x ∧ x + 1 < img.width ∧ 1 ≤ y ∧ y + 1 < img.height then
          clampNat (convSum img x y (i % 4))
        else v) 0 img.data from rfl,
      mapSamples_getD _ _ 0 _ hidx, Nat.zero_add]
    simp only [hmod, hdiv, hpmod, hpdiv]
    rw [if_neg (by simp; omega), if_pos ⟨hx1, hx2, hy1, hy2⟩]
    rw [convSum_interior img x y c hx1 hy1]
  · intro img x y c hlen hxw hyh hc hbord
    have hidx : (y * img.width + x) * 4 + c < img.data.length := by
      rw [hlen]; exact pixIndexLt hxw hyh (by omega)
    have hmod : ((y * img.width + x) * 4 + c) % 4 = c := by omega
    have hdiv : ((y * img.width + x) * 4 + c) / 4 = y * img.width + x := by omega
    have hpmod : (y * img.width + x) % img.width = x := by
      rw [Nat.mul_comm y img.width, Nat.mul_add_mod]; exact Nat.mod_eq_of_lt hxw
    have hpdiv : (y * img.width + x) / img.width = y := by
      rw [Nat.mul_comm y img.width, Nat.mul_add_div (by omega)]
      rw [Nat.div_eq_of_lt hxw]
      omega
    rw [show (sharpenImage img).data = mapSamples (fun i v =>
        let x := i / 4 % img.width
        let y := i / 4 / img.width
        if i % 4 == 3 then v
        else if 1 ≤ x ∧ x + 1 < img.width ∧ 1 ≤ y ∧ y + 1 < img.height then
          clampNat (convSum img x y (i % 4))
        else v) 0 img.data from rfl,
      mapSamples_getD _ _ 0 _ hidx, Nat.zero_add]
    simp only [hmod, hdiv, hpmod, hpdiv]
    rw [if_neg (by simp; omega), if_neg hbord]
  · intro img i hi
    exact mapSamples_alpha _ (fun j v hj => by simp [hj]) img.data i hi

/-- C9 witness: the interior pixel of a concrete 3×3 buffer. -/
theorem sharpenImage_spec_witness :
    demoImg3.data.length = demoImg3.width * demoImg3.height * 4 ∧
    (sharpenImage demoImg3).data.getD ((1 * demoImg3.width + 1) * 4 + 0) 0 =
      clampNat (5 * (sampleAt demoImg3 1 1 0 : ℤ) - sampleAt demoImg3 0 1 0
        - sampleAt demoImg3 2 1 0 - sampleAt demoImg3 1 0 0
        - sampleAt demoImg3 1 2 0) :=
  ⟨by decide,
   sharpenImage_spec.1 demoImg3 1 1 0 (by decide) (by decide) (by decide)
     (by decide) (by decide) (by decide)⟩

/-- C6: a candidate is accepted by addUniqueResults exactly when its
payload differs from every already-accepted payload and its position key
is not in the seen set; on acceptance both the payload and the position
key join the seen set; consequently the accepted list always has
pairwise-distinct payloads, an invariant preserved across the
full-frame, grid and sliding-window stages of the orchestrator. -/
theorem addUniqueResults_spec :
    (∀ (results : List QRResult) (r : QRResult) (rest : List QRResult)
        (found : List String),
      addUniqueResults results (r :: rest) found =
        if (results.any fun q => q.serialNumber == r.serialNumber) = false ∧
            found.contains (positionKey r) = false then
          addUniqueResults (results ++ [r]) rest
            (positionKey r :: r.serialNumber :: found)
        else addUniqueResults results rest found) ∧
    (∀ (results newResults : List QRResult) (found : List String),
      results.Pairwise (fun a b => a.serialNumber ≠ b.serialNumber) →
      (addUniqueResults results newResults found).1.Pairwise
        (fun a b => a.serialNumber ≠ b.serialNumber)) ∧
    (∀ full grid sliding : StageOutcome,
      (performOptimizedRecognitionTimed full grid sliding).1.Pairwise
        (fun a b => a.serialNumber ≠ b.serialNumber)) := by
  refine ⟨?_, ?_, ?_⟩
  · intro results r rest found
    cases ha : results.any fun q => q.serialNumber == r.serialNumber <;>
      cases hb : found.contains (positionKey r) <;>
        simp_all [addUniqueResults]
  · exact fun results newResults found h =>
      addUniqueResults_pairwise newResults results found h
  · intro full grid sliding
    unfold performOptimizedRecognitionTimed
    dsimp only
    split_ifs <;>
      first
        | exact addUniqueResults_pairwise _ _ _
            (addUniqueResults_pairwise _ _ _
              (addUniqueResults_pairwise _ _ _ List.Pairwise.nil))
        | exact addUniqueResults_pairwise _ _ _
            (addUniqueResults_pairwise _ _ _ List.Pairwise.nil)
        | exact addUniqueResults_pairwise _ _ _ List.Pairwise.nil

/-- C6 witness: merging a concrete batch into an empty accepted list
preserves distinctness of payloads. -/
theorem addUniqueResults_spec_witness :
    ([] : List QRResult).Pairwise (fun a b => a.serialNumber ≠ b.serialNumber) ∧
    (addUniqueResults [] [demoResult, demoResult] []).1.Pairwise
      (fun a b => a.serialNumber ≠ b.serialNumber) :=
  ⟨List.Pairwise.nil,
   addUniqueResults_spec.2.1 [] [demoResult, demoResult] [] List.Pairwise.nil⟩

/-- C7: the single-region exhaustive path equals the first successful
decode over the ordered attempt list — original region, then
contrast-enhanced, brightened (+30), darkened (-30), sharpened, then the
rescales at factors 0.5, 0.75, 1.25, 1.5 and 2.0, every attempt in
both-polarity mode — short-circuiting at the first success, and returning
the empty outcome none (never an exception: the function is total) when
every attempt fails. -/
theorem tryMultipleRecognitionStrategies_spec :
    (∀ (decode : ImageData → Inversion → Option String)
        (scaleImage : ℚ → Option ImageData) (orig : ImageData),
      tryMultipleRecognitionStrategies decode scaleImage orig =
        (strategyAttempts decode scaleImage orig).findSome? id) ∧
    (∀ (decode : ImageData → Inversion → Option String)
        (scaleImage : ℚ → Option ImageData) (orig : ImageData),
      (∀ a ∈ strategyAttempts decode scaleImage orig, a = none) →
      tryMultipleRecognitionStrategies decode scaleImage orig = none) := by
  have main : ∀ (decode : ImageData → Inversion → Option String)
      (scaleImage : ℚ → Option ImageData) (orig : ImageData),
      tryMultipleRecognitionStrategies decode scaleImage orig =
        (strategyAttempts decode scaleImage orig).findSome? id := by
    intro decode scaleImage orig
    simp only [strategyAttempts, List.cons_append, List.nil_append]
    cases h1 : decode orig .attemptBoth with
    | some d => simp [tryMultipleRecognitionStrategies, h1, List.findSome?_cons]
    | none =>
    cases h2 : decode (enhanceContrast orig) .attemptBoth with
    | some d => simp [tryMultipleRecognitionStrategies, h1, h2, List.findSome?_cons]
    | none =>
    cases h3 : decode (adjustBrightness orig 30) .attemptBoth with
    | some d => simp [tryMultipleRecognitionStrategies, h1, h2, h3, List.findSome?_cons]
    | none =>
    cases h4 : decode (adjustBrightness orig (-30)) .attemptBoth with
    | some d =>
      simp [tryMultipleRecognitionStrategies, h1, h2, h3, h4, List.findSome?_cons]
    | none =>
    cases h5 : decode (sharpenImage orig) .attemptBoth with
    | some d =>
      simp [tryMultipleRecognitionStrategies, h1, h2, h3, h4, h5, List.findSome?_cons]
    | none =>
      simp only [tryMultipleRecognitionStrategies, h1, h2, h3, h4, h5,
        List.findSome?_cons, id, Option.none_orElse]
      exact tryScaleStrategies_eq_findSome decode scaleImage scaleFactors
  refine ⟨main, ?_⟩
  intro decode scaleImage orig h
  rw [main decode scaleImage orig, List.findSome?_eq_none_iff]
  intro a ha
  simpa using h a ha

/-- C7 witness: with a decode oracle that never succeeds and a failing
rescale oracle, every strategy fails and the path returns none. -/
theorem tryMultipleRecognitionStrategies_spec_witness :
    tryMultipleRecognitionStrategies nullDecode nullScale demoPixel = none :=
  tryMultipleRecognitionStrategies_spec.2 nullDecode nullScale demoPixel
    (by decide)

/-- C1 counterexample: the full-frame stage completes at 500 ms having
accumulated one decoded result, the grid stage pushes the pipeline
settle time to 3000 ms, so the 2000 ms deadline fires — and the entry
point returns the EMPTY result set with totalFound 0, not the accumulated
non-empty one: the timeout rejection of the race reaches the catch block,
which cannot see the local accumulation of the pending pipeline. -/
theorem recognizeAll_timeout_counterexample :
    recognizeAll (.ok ()) (.ok ()) ⟨500, [demoResult]⟩ ⟨2500, []⟩ ⟨0, []⟩ 2000 =
      .ok ⟨[], 0, 2000⟩ ∧
    (addUniqueResults [] [demoResult] []).1 = [demoResult] ∧
    (performOptimizedRecognitionTimed ⟨500, [demoResult]⟩ ⟨2500, []⟩ ⟨0, []⟩).2 = 3000 ∧
    ([] : List QRResult) ≠ [demoResult] := by
  exact ⟨rfl, rfl, rfl, by decide⟩

/-- C1 amended: when the 2000 ms deadline fires before the recognition
pipeline settles, the multi-code entry point still returns normally (never
raises) with the measured elapsed time recorded — but with an EMPTY result
set (results = [], totalFound = 0): accumulated partial results are
discarded, not returned. -/
theorem recognizeMultipleQRCodes_timeout_empty :
    (∀ (load : Except String Unit) (settle : ℕ) (rs : List QRResult) (e : ℕ),
      2000 ≤ settle →
      recognizeMultipleQRCodes (.ok ()) load settle rs e = .ok ⟨[], 0, e⟩) ∧
    (∀ (load : Except String Unit) (full grid sliding : StageOutcome) (e : ℕ),
      ∃ v, recognizeAll (.ok ()) load full grid sliding e = .ok v) := by
  constructor
  · intro load settle rs e h
    cases load with
    | ok u =>
      cases u
      unfold recognizeMultipleQRCodes
      simp only [show promiseRace 2000 settle (Except.ok rs) "识别超时" =
        .error "识别超时" from if_neg (by omega)]
      rfl
    | error m => rfl
  · intro load full grid sliding e
    cases load with
    | error m => exact ⟨⟨[], 0, e⟩, rfl⟩
    | ok u =>
      cases u
      by_cases h : (performOptimizedRecognitionTimed full grid sliding).2 < 2000
      · refine ⟨⟨(performOptimizedRecognitionTimed full grid sliding).1,
          (performOptimizedRecognitionTimed full grid sliding).1.length, e⟩, ?_⟩
        unfold recognizeAll recognizeMultipleQRCodes
        simp only [show promiseRace 2000
            (performOptimizedRecognitionTimed full grid sliding).2
            (Except.ok (performOptimizedRecognitionTimed full grid sliding).1)
            "识别超时" =
          .ok (performOptimizedRecognitionTimed full grid sliding).1 from if_pos h]
        rfl
      · refine ⟨⟨[], 0, e⟩, ?_⟩
        unfold recognizeAll recognizeMultipleQRCodes
        simp only [show promiseRace 2000
            (performOptimizedRecognitionTimed full grid sliding).2
            (Except.ok (performOptimizedRecognitionTimed full grid sliding).1)
            "识别超时" =
          .error "识别超时" from if_neg h]
        rfl

/-- C1 witness. -/
theorem recognizeMultipleQRCodes_timeout_empty_witness :
    2000 ≤ 2500 ∧
    recognizeMultipleQRCodes (.ok ()) (.ok ()) 2500 [demoResult] 2000 =
      .ok ⟨[], 0, 2000⟩ :=
  ⟨by decide,
   recognizeMultipleQRCodes_timeout_empty.1 (.ok ()) 2500 [demoResult] 2000 (by decide)⟩

/-- C2 counterexample: an image-load failure (图片加载失败) inside the
multi-code entry point is caught by its catch-all and yields a normal
empty result — it is NOT propagated to the caller as an error. -/
theorem recognizeMultipleQRCodes_loadfail_counterexample :
    recognizeMultipleQRCodes (.ok ()) (.error "图片加载失败") 0 [] 7 =
      .ok ⟨[], 0, 7⟩ := rfl

/-- C2 amended: no failure inside the try blocks of the entry points propagates:
the multi-code entry point maps every rejection — including image-load
failure — to a normal empty MultiQRResult, and the single-image entry
point maps every rejection to a normal failed QRResult with description
识别失败 and confidence 0; a load failure inside the fast single-image
attempts is likewise swallowed into the no-code-found result. (Only an
initialization failure, which occurs before the try blocks, would
propagate.) -/
theorem recognition_no_propagation :
    (∀ (load : Except String Unit) (settle : ℕ) (rs : List QRResult) (e : ℕ),
      ∃ v, recognizeMultipleQRCodes (.ok ()) load settle rs e = .ok v) ∧
    (∀ (msg : String) (settle : ℕ) (rs : List QRResult) (e : ℕ),
      recognizeMultipleQRCodes (.ok ()) (.error msg) settle rs e = .ok ⟨[], 0, e⟩) ∧
    (∀ (perform : Except String QRResult) (settle e : ℕ),
      ∃ r, recognizeImage (.ok ()) perform settle e = .ok r) ∧
    (performFastSingleRecognition (.error "图片加载失败") (.error "图片加载失败")
      true (.error "图片加载失败") = notFoundResult) ∧
    (∀ (settle e : ℕ), settle < 1500 →
      recognizeImage (.ok ()) (.error "图片加载失败") settle e =
        .ok ⟨"", "unknown", "识别失败", 0, e, none⟩) := by
  refine ⟨?_, ?_, ?_, rfl, ?_⟩
  · intro load settle rs e
    cases load with
    | error m => exact ⟨⟨[], 0, e⟩, rfl⟩
    | ok u =>
      cases u
      by_cases h : settle < 2000
      · refine ⟨⟨rs, rs.length, e⟩, ?_⟩
        unfold recognizeMultipleQRCodes
        simp only [show promiseRace 2000 settle (Except.ok rs) "识别超时" =
          .ok rs from if_pos h]
        rfl
      · refine ⟨⟨[], 0, e⟩, ?_⟩
        unfold recognizeMultipleQRCodes
        simp only [show promiseRace 2000 settle (Except.ok rs) "识别超时" =
          .error "识别超时" from if_neg h]
        rfl
  · intro msg settle rs e
    rfl
  · intro perform settle e
    by_cases h : settle < 1500
    · cases hp : perform with
      | ok r =>
        refine ⟨{ r with processingTime := e }, ?_⟩
        unfold recognizeImage
        simp only [show promiseRace 1500 settle (Except.ok r : Except String QRResult)
          "单图识别超时" = .ok r from if_pos h]
        rfl
      | error m =>
        refine ⟨⟨"", "unknown",
          if strIncludes m "超时" then "识别超时" else "识别失败", 0, e, none⟩, ?_⟩
        unfold recognizeImage
        simp only [show promiseRace 1500 settle
          (Except.error m : Except String QRResult) "单图识别超时" =
          .error m from if_pos h]
        rfl
    · refine ⟨⟨"", "unknown", "识别超时", 0, e, none⟩, ?_⟩
      unfold recognizeImage
      simp only [show promiseRace 1500 settle perform "单图识别超时" =
        .error "单图识别超时" from if_neg h]
      rfl
  · intro settle e h
    unfold recognizeImage
    simp only [show promiseRace 1500 settle
        (Except.error "图片加载失败" : Except String QRResult) "单图识别超时" =
      .error "图片加载失败" from if_pos h]
    rfl

/-- C2 witness. -/
theorem recognition_no_propagation_witness :
    (0 : ℕ) < 1500 ∧
    recognizeImage (.ok ()) (.error "图片加载失败") 0 7 =
      .ok ⟨"", "unknown", "识别失败", 0, 7, none⟩ :=
  ⟨by decide, recognition_no_propagation.2.2.2.2 0 7 (by decide)⟩

/-- C3: the single-image entry point always returns normally with the
measured elapsed time recorded in the result; when the 1500 ms deadline is
reached first, the returned description is the timed-out label 识别超时,
which differs from the no-code-found label 未识别到二维码; when nothing is
found, the settled result is the no-code-found result — empty payload,
type unknown, description 未识别到二维码, confidence 0 — which the entry
point returns with the elapsed time filled in. (The UNKNOWN, "timed out" and "not found"
wordings of the claim are English glosses of the source literals unknown / 识别超时 / 未识别到二维码.) -/
theorem recognizeImage_outcome_spec :
    (∀ (perform : Except String QRResult) (settle e : ℕ),
      ∃ r, recognizeImage (.ok ()) perform settle e = .ok r ∧
        r.processingTime = e) ∧
    (∀ (perform : Except String QRResult) (settle e : ℕ), 1500 ≤ settle →
      recognizeImage (.ok ()) perform settle e =
        .ok ⟨"", "unknown", "识别超时", 0, e, none⟩) ∧
    ("识别超时" ≠ "未识别到二维码") ∧
    (performFastSingleRecognition (.error "扫描失败") (.error "扫描失败") true
      (.error "未检测到二维码") = notFoundResult) ∧
    (performFastSingleRecognition (.ok emptyFastResult) (.ok emptyFastResult) false
      (.error "未检测到二维码") = notFoundResult) ∧
    (notFoundResult = ⟨"", "unknown", "未识别到二维码", 0, 0, none⟩) ∧
    (∀ (settle e : ℕ), settle < 1500 →
      recognizeImage (.ok ()) (.ok notFoundResult) settle e =
        .ok ⟨"", "unknown", "未识别到二维码", 0, e, none⟩) := by
  refine ⟨?_, ?_, by decide, rfl, rfl, rfl, ?_⟩
  · intro perform settle e
    by_cases h : settle < 1500
    · cases hp : perform with
      | ok r =>
        refine ⟨{ r with processingTime := e }, ?_, rfl⟩
        unfold recognizeImage
        simp only [show promiseRace 1500 settle (Except.ok r : Except String QRResult)
          "单图识别超时" = .ok r from if_pos h]
        rfl
      | error m =>
        refine ⟨⟨"", "unknown",
          if strIncludes m "超时" then "识别超时" else "识别失败", 0, e, none⟩, ?_, rfl⟩
        unfold recognizeImage
        simp only [show promiseRace 1500 settle
          (Except.error m : Except String QRResult) "单图识别超时" =
          .error m from if_pos h]
        rfl
    · refine ⟨⟨"", "unknown", "识别超时", 0, e, none⟩, ?_, rfl⟩
      unfold recognizeImage
      simp only [show promiseRace 1500 settle perform "单图识别超时" =
        .error "单图识别超时" from if_neg h]
      rfl
  · intro perform settle e h
    unfold recognizeImage
    simp only [show promiseRace 1500 settle perform "单图识别超时" =
      .error "单图识别超时" from if_neg (by omega)]
    rfl
  · intro settle e h
    unfold recognizeImage
    simp only [show promiseRace 1500 settle
        (Except.ok notFoundResult : Except String QRResult) "单图识别超时" =
      .ok notFoundResult from if_pos h]
    rfl

/-- C3 witness: at the deadline the timed-out result comes back. -/
theorem recognizeImage_outcome_spec_witness :
    1500 ≤ 1500 ∧
    recognizeImage (.ok ()) (.ok notFoundResult) 1500 42 =
      .ok ⟨"", "unknown", "识别超时", 0, 42, none⟩ :=
  ⟨by decide,
   recognizeImage_outcome_spec.2.1 (.ok notFoundResult) 1500 42 (by decide)⟩

end QRScanner
